import Mathlib

/-!
Shallow embedding of `event_raiser_gen/raiser_gen.py`: a process-wide event
registry mapping event names to ordered callback lists, a generator that
synthesizes per-event registration decorators and sync/async raise functions,
and the lifecycle helpers `clear_event_registry` and `get_event_registry`.

Callbacks are modelled as numeric ids interpreted by an environment `Env`
that assigns each id a behavior: whether it is a coroutine function
(`inspect.iscoroutinefunction`), the outcome of executing its body on given
arguments (normal return, an `Exception`-derived error, or a `BaseException`
level error such as `KeyboardInterrupt` that `except Exception` does not
catch), and the registration calls its body performs while running.

The registry is an insertion-ordered association list, matching CPython dict
semantics (`name not in d` check, `d[name].append`, `d.get(name, [])`,
`d.clear()`). Dispatch is modelled as the Python `for` loop really executes:
an index walk over the LIVE list object, re-reading the list on every
iteration, with a fuel bound because a callback that keeps registering new
callbacks for the same event makes the Python loop run forever. Observable
behavior (callback invocations, awaited completions, `[NOTICE]` error lines,
`[WARNING]` not-awaited lines) is collected in an event trace.
-/

set_option autoImplicit false

namespace EventRaiserGen

/-- Outcome of running a callback body: normal return, an error deriving from
`Exception` (caught by the raisers' `except Exception` handler), or a
`BaseException`-level error such as `KeyboardInterrupt` or `SystemExit`
(not caught by `except Exception`). -/
inductive Outcome where
  | ok : Outcome
  | excErr (msg : String) : Outcome
  | baseErr (msg : String) : Outcome
  deriving DecidableEq, Repr

/-- Behavior of one callback object, indexed by the argument value it is
called with: `isCoroutine` is `inspect.iscoroutinefunction`; `run` is the
outcome of executing the body; `registers` lists the `(event, callbackId)`
registration calls the body performs while it runs (in order, before any
error it raises). A coroutine function's body does not run when the function
is merely called; it runs only when the returned coroutine is awaited. -/
structure CallbackSpec (Args : Type) where
  isCoroutine : Bool
  run : Args → Outcome
  registers : Args → List (String × Nat)

/-- Environment interpreting callback ids. -/
abbrev Env (Args : Type) : Type := Nat → CallbackSpec Args

/-- The event registry `_event_registry`: insertion-ordered mapping from
event name to the ordered list of registered callback ids. -/
abbrev Registry : Type := List (String × List Nat)

/-- Python `_event_registry.get(name, [])`. -/
def lookupReg (reg : Registry) (name : String) : List Nat :=
  match reg.find? (fun p => p.1 == name) with
  | some p => p.2
  | none => []

/-- Body of the generated decorator: `if name not in _event_registry:
_event_registry[name] = []` followed by `_event_registry[name].append(func)`.
Dict assignment overwrites in place (preserving key order) when the key
exists and appends a new entry otherwise. -/
def registerCallback (reg : Registry) (name : String) (func : Nat) : Registry :=
  if (List.find? (fun p => p.1 == name) reg).isSome then
    reg.map (fun p => if p.1 == name then (p.1, p.2 ++ [func]) else p)
  else
    reg ++ [(name, [func])]

/-- Apply a sequence of registration calls in order. -/
def applyRegisters (reg : Registry) (rs : List (String × Nat)) : Registry :=
  rs.foldl (fun r p => registerCallback r p.1 p.2) reg

/-- The generated registration decorator for event `name`: registers the
callback and returns the same callback unchanged. -/
def decorator (name : String) (reg : Registry) (func : Nat) : Registry × Nat :=
  (registerCallback reg name func, func)

/-- Python `clear_event_registry`: `_event_registry.clear()`. -/
def clear_event_registry (_reg : Registry) : Registry := []

/-- References to heap objects that the helpers can hand out.
`get_event_registry` returns the module-global registry dict ITSELF
(`return _event_registry`), not a copy, so the only reference value needed
is the alias of the live registry. -/
inductive ObjRef where
  | registryRef : ObjRef
  deriving DecidableEq

/-- Python `get_event_registry`: leaves the state unchanged and returns a
reference to the live registry object. -/
def get_event_registry (reg : Registry) : Registry × ObjRef :=
  (reg, ObjRef.registryRef)

/-- Reading the mapping held by a reference, in the CURRENT state: the alias
of the live registry always shows the registry as it is now. -/
def readRef (reg : Registry) : ObjRef → Registry
  | ObjRef.registryRef => reg

/-- Mutating the object held by a reference: writing through the alias of the
live registry replaces the registry contents. -/
def writeRef (_reg : Registry) (r : ObjRef) (v : Registry) : Registry :=
  match r with
  | ObjRef.registryRef => v

/-- Observable events of one dispatch, in order of occurrence:
`invoke c a` is the call of callback object `c` with argument value `a`;
`complete c` marks that callback `c`'s body ran to completion (for an async
callback under the async raiser this is the completion of the await);
`notice e m` is the `[NOTICE] Error in event e: m` line;
`warning e` is the `[WARNING] Async callback in sync raiser e - will not be
awaited` line. -/
inductive Ev (Args : Type) where
  | invoke (cb : Nat) (args : Args) : Ev Args
  | complete (cb : Nat) : Ev Args
  | notice (event : String) (msg : String) : Ev Args
  | warning (event : String) : Ev Args
  deriving DecidableEq, Repr

/-- Result of one raiser invocation: the registry after the dispatch, the
trace of observable events, and `some m` when an uncaught (BaseException
level) error `m` escaped to the raiser's caller (`none` means the raiser
returned normally). -/
structure DispatchResult (Args : Type) where
  reg : Registry
  trace : List (Ev Args)
  raised : Option String
  deriving DecidableEq

/-- One iteration of the sync raiser's loop body on callback `c`:
`if inspect.iscoroutinefunction(callback): print(WARNING)` then
`callback(*args, **kwargs)` inside `try: ... except Exception: print(NOTICE)`.
Calling a coroutine function only creates a coroutine object: the warning is
printed, the call happens, but the body never runs (no completion, no
registration effects, no error from the body). For a plain callback the call
runs the body: its registration calls mutate the registry; an
`Exception`-level error is caught and turned into one notice; a
`BaseException`-level error escapes uncaught. -/
def syncStep {Args : Type} (env : Env Args) (name : String) (args : Args)
    (c : Nat) (reg : Registry) : Registry × List (Ev Args) × Option String :=
  if (env c).isCoroutine then
    (reg, [Ev.warning name, Ev.invoke c args], none)
  else
    let reg1 := applyRegisters reg ((env c).registers args)
    match (env c).run args with
    | Outcome.ok => (reg1, [Ev.invoke c args, Ev.complete c], none)
    | Outcome.excErr m => (reg1, [Ev.invoke c args, Ev.notice name m], none)
    | Outcome.baseErr m => (reg1, [Ev.invoke c args], some m)

/-- The sync raiser's `for callback in _event_registry.get(name, []):` loop,
exactly as CPython executes it: an index walk over the live list object,
re-reading the (possibly mutated) list before each iteration. `fuel` bounds
the number of iterations, since a callback that registers new callbacks for
the same event grows the list under the loop (and can make the Python loop
run forever). An uncaught error stops the loop and escapes. -/
def syncLoop {Args : Type} (env : Env Args) (name : String) (args : Args) :
    Nat → Nat → Registry → DispatchResult Args
  | 0, _, reg => ⟨reg, [], none⟩
  | fuel + 1, i, reg =>
    let cbs := lookupReg reg name
    if h : i < cbs.length then
      match syncStep env name args (cbs.get ⟨i, h⟩) reg with
      | (reg1, evs, some m) => ⟨reg1, evs, some m⟩
      | (reg1, evs, none) =>
        let r := syncLoop env name args fuel (i + 1) reg1
        ⟨r.reg, evs ++ r.trace, r.raised⟩
    else ⟨reg, [], none⟩

/-- The generated `raise_<name>` function applied to an argument value. -/
def syncRaiser {Args : Type} (env : Env Args) (name : String) (args : Args)
    (reg : Registry) (fuel : Nat) : DispatchResult Args :=
  syncLoop env name args fuel 0 reg

/-- One iteration of the async raiser's loop body on callback `c`:
`await callback(...)` for coroutine functions, `callback(...)` for plain
ones, inside the same `try: ... except Exception: print(NOTICE)`. In both
cases the body runs to completion (the await suspends until the coroutine
finishes) before the loop proceeds: registration effects apply, an
`Exception`-level error yields one notice, a `BaseException`-level error
escapes uncaught. No warning is emitted. -/
def asyncStep {Args : Type} (env : Env Args) (name : String) (args : Args)
    (c : Nat) (reg : Registry) : Registry × List (Ev Args) × Option String :=
  let reg1 := applyRegisters reg ((env c).registers args)
  match (env c).run args with
  | Outcome.ok => (reg1, [Ev.invoke c args, Ev.complete c], none)
  | Outcome.excErr m => (reg1, [Ev.invoke c args, Ev.notice name m], none)
  | Outcome.baseErr m => (reg1, [Ev.invoke c args], some m)

/-- The async raiser's loop: same live-list index walk as the sync raiser. -/
def asyncLoop {Args : Type} (env : Env Args) (name : String) (args : Args) :
    Nat → Nat → Registry → DispatchResult Args
  | 0, _, reg => ⟨reg, [], none⟩
  | fuel + 1, i, reg =>
    let cbs := lookupReg reg name
    if h : i < cbs.length then
      match asyncStep env name args (cbs.get ⟨i, h⟩) reg with
      | (reg1, evs, some m) => ⟨reg1, evs, some m⟩
      | (reg1, evs, none) =>
        let r := asyncLoop env name args fuel (i + 1) reg1
        ⟨r.reg, evs ++ r.trace, r.raised⟩
    else ⟨reg, [], none⟩

/-- The generated `raise_<name>_async` function applied to an argument value,
run to completion on the event loop. -/
def asyncRaiser {Args : Type} (env : Env Args) (name : String) (args : Args)
    (reg : Registry) (fuel : Nat) : DispatchResult Args :=
  asyncLoop env name args fuel 0 reg

/-- Event parameter descriptors `[("param_name", "type"), ...]`; the type is
kept as an opaque tag since it is introspection metadata only. -/
abbrev EventParams : Type := List (String × String)

/-- The event dictionary handed to the generator, in declaration order. -/
abbrev EventDict : Type := List (String × EventParams)

/-- Values bound into the target namespace by the generator: the registration
decorator and the two raise functions, each carrying the event name (and for
the raisers the signature parameters attached via `__signature__`). -/
inductive Binding where
  | decoratorFn (event : String) : Binding
  | syncRaiserFn (event : String) (params : EventParams) : Binding
  | asyncRaiserFn (event : String) (params : EventParams) : Binding
  deriving DecidableEq

/-- The caller-supplied `module_globals`: a string-keyed write target with
dict assignment semantics (overwrite in place, else append). -/
abbrev Namespace : Type := List (String × Binding)

/-- Dict assignment `ns[k] = v`. -/
def nsWrite (ns : Namespace) (k : String) (v : Binding) : Namespace :=
  if (List.find? (fun p => p.1 == k) ns).isSome then
    ns.map (fun p => if p.1 == k then (p.1, v) else p)
  else
    ns ++ [(k, v)]

/-- Python `generate_event_raisers(events, module_globals)`: for each event,
bind the decorator under the event name, the async raiser under
`raise_<name>_async`, and the sync raiser under `raise_<name>` into the
namespace. The function body never touches `_event_registry`; the registry
component of the state is threaded through untouched, mirroring the source. -/
def generate_event_raisers (events : EventDict)
    (st : Registry × Namespace) : Registry × Namespace :=
  events.foldl
    (fun st p =>
      let ns1 := nsWrite st.2 p.1 (Binding.decoratorFn p.1)
      let ns2 := nsWrite ns1 ("raise_" ++ p.1 ++ "_async") (Binding.asyncRaiserFn p.1 p.2)
      let ns3 := nsWrite ns2 ("raise_" ++ p.1) (Binding.syncRaiserFn p.1 p.2)
      (st.1, ns3))
    st

/-- The callback invocations recorded in a trace, in order. -/
def invokesOf {Args : Type} (tr : List (Ev Args)) : List (Nat × Args) :=
  tr.filterMap (fun e =>
    match e with
    | Ev.invoke c a => some (c, a)
    | _ => none)

/-- The `[NOTICE]` lines recorded in a trace, in order, as
(event name, error message) pairs. -/
def noticesOf {Args : Type} (tr : List (Ev Args)) : List (String × String) :=
  tr.filterMap (fun e =>
    match e with
    | Ev.notice n m => some (n, m)
    | _ => none)

/-- The `[WARNING]` not-awaited lines recorded in a trace, in order. -/
def warningsOf {Args : Type} (tr : List (Ev Args)) : List String :=
  tr.filterMap (fun e =>
    match e with
    | Ev.warning n => some n
    | _ => none)

/-- Observable events and escaping error of one sync-raiser iteration, as a
pure function of the callback (coincides with `syncStep` whenever the
callback performs no registrations). -/
def syncEvents {Args : Type} (env : Env Args) (name : String) (args : Args)
    (c : Nat) : List (Ev Args) × Option String :=
  if (env c).isCoroutine then
    ([Ev.warning name, Ev.invoke c args], none)
  else
    match (env c).run args with
    | Outcome.ok => ([Ev.invoke c args, Ev.complete c], none)
    | Outcome.excErr m => ([Ev.invoke c args, Ev.notice name m], none)
    | Outcome.baseErr m => ([Ev.invoke c args], some m)

/-- Observable events and escaping error of one async-raiser iteration, as a
pure function of the callback (coincides with `asyncStep` whenever the
callback performs no registrations). -/
def asyncEvents {Args : Type} (env : Env Args) (name : String) (args : Args)
    (c : Nat) : List (Ev Args) × Option String :=
  match (env c).run args with
  | Outcome.ok => ([Ev.invoke c args, Ev.complete c], none)
  | Outcome.excErr m => ([Ev.invoke c args, Ev.notice name m], none)
  | Outcome.baseErr m => ([Ev.invoke c args], some m)

/-- Reference dispatch over a FIXED callback list: run the per-callback step
left to right, concatenating the events, stopping at the first escaping
error. The raisers coincide with this whenever the invoked callbacks do not
mutate the registry. -/
def dispatchPure {Args : Type} (step : Nat → List (Ev Args) × Option String) :
    List Nat → List (Ev Args) × Option String
  | [] => ([], none)
  | c :: cs =>
    match step c with
    | (evs, some m) => (evs, some m)
    | (evs, none) =>
      let r := dispatchPure step cs
      (evs ++ r.1, r.2)

theorem lookupReg_nil (name : String) : lookupReg [] name = [] := rfl

theorem fst_appendEntry (name : String) (c : Nat) (q : String × List Nat) :
    ((if q.1 == name then (q.1, q.2 ++ [c]) else q) : String × List Nat).1 = q.1 := by
  split <;> rfl

/-- Appending a callback for `name` extends exactly the list dispatch will
read back for `name`. -/
theorem lookupReg_registerCallback_self (reg : Registry) (name : String) (c : Nat) :
    lookupReg (registerCallback reg name c) name = lookupReg reg name ++ [c] := by
  unfold registerCallback
  rcases hfind : List.find? (fun p => p.1 == name) reg with _ | q
  · simp only [hfind, Option.isSome_none, Bool.false_eq_true, if_false]
    unfold lookupReg
    rw [List.find?_append, hfind]
    simp
  · simp only [hfind, Option.isSome_some, if_true]
    unfold lookupReg
    rw [List.find?_map]
    have hcomp :
        ((fun p : String × List Nat => p.1 == name) ∘
          (fun p : String × List Nat => if p.1 == name then (p.1, p.2 ++ [c]) else p)) =
        fun p : String × List Nat => p.1 == name := by
      funext p
      simp only [Function.comp_apply, fst_appendEntry]
    rw [hcomp, hfind]
    have hq : q.1 = name := by
      have hh := List.find?_some hfind
      simpa using hh
    simp [hq]

/-- When a callback performs no registrations, the sync step leaves the
registry alone and its observables are `syncEvents`. -/
theorem syncStep_of_noregisters {Args : Type} (env : Env Args) (name : String)
    (args : Args) (c : Nat) (reg : Registry)
    (h : (env c).registers args = []) :
    syncStep env name args c reg = (reg, syncEvents env name args c) := by
  unfold syncStep syncEvents
  rw [h]
  simp only [applyRegisters, List.foldl_nil]
  split
  · rfl
  · rcases (env c).run args <;> rfl

/-- When a callback performs no registrations, the async step leaves the
registry alone and its observables are `asyncEvents`. -/
theorem asyncStep_of_noregisters {Args : Type} (env : Env Args) (name : String)
    (args : Args) (c : Nat) (reg : Registry)
    (h : (env c).registers args = []) :
    asyncStep env name args c reg = (reg, asyncEvents env name args c) := by
  unfold asyncStep asyncEvents
  rw [h]
  simp only [applyRegisters, List.foldl_nil]
  rcases (env c).run args <;> rfl

/-- With registration-free callbacks, the sync raiser's live-list loop from
index `i` computes the reference dispatch of the remaining fixed suffix,
provided the fuel covers the remaining iterations. -/
theorem syncLoop_eq_dispatchPure {Args : Type} (env : Env Args) (name : String)
    (args : Args) (hreg : ∀ c a, (env c).registers a = []) :
    ∀ (fuel i : Nat) (reg : Registry),
      (lookupReg reg name).length - i ≤ fuel →
      syncLoop env name args fuel i reg =
        ⟨reg,
         (dispatchPure (syncEvents env name args) ((lookupReg reg name).drop i)).1,
         (dispatchPure (syncEvents env name args) ((lookupReg reg name).drop i)).2⟩ := by
  intro fuel
  induction fuel with
  | zero =>
    intro i reg hfuel
    have hlen : (lookupReg reg name).length ≤ i := by omega
    rw [List.drop_eq_nil_of_le hlen]
    rfl
  | succ fuel ih =>
    intro i reg hfuel
    simp only [syncLoop]
    by_cases h : i < (lookupReg reg name).length
    · rw [dif_pos h, syncStep_of_noregisters env name args _ reg (hreg _ args)]
      rw [List.drop_eq_getElem_cons h]
      have hget : (lookupReg reg name)[i] = (lookupReg reg name).get ⟨i, h⟩ := rfl
      rcases hev : syncEvents env name args ((lookupReg reg name).get ⟨i, h⟩) with ⟨evs, err⟩
      rcases err with _ | m
      · dsimp only
        have hrec := ih (i + 1) reg (by omega)
        rw [hrec]
        simp only [dispatchPure, hget, hev]
      · dsimp only
        simp only [dispatchPure, hget, hev]
    · have hlen : (lookupReg reg name).length ≤ i := by omega
      rw [List.drop_eq_nil_of_le hlen, dif_neg h]
      rfl

/-- With registration-free callbacks, the async raiser's live-list loop from
index `i` computes the reference dispatch of the remaining fixed suffix,
provided the fuel covers the remaining iterations. -/
theorem asyncLoop_eq_dispatchPure {Args : Type} (env : Env Args) (name : String)
    (args : Args) (hreg : ∀ c a, (env c).registers a = []) :
    ∀ (fuel i : Nat) (reg : Registry),
      (lookupReg reg name).length - i ≤ fuel →
      asyncLoop env name args fuel i reg =
        ⟨reg,
         (dispatchPure (asyncEvents env name args) ((lookupReg reg name).drop i)).1,
         (dispatchPure (asyncEvents env name args) ((lookupReg reg name).drop i)).2⟩ := by
  intro fuel
  induction fuel with
  | zero =>
    intro i reg hfuel
    have hlen : (lookupReg reg name).length ≤ i := by omega
    rw [List.drop_eq_nil_of_le hlen]
    rfl
  | succ fuel ih =>
    intro i reg hfuel
    simp only [asyncLoop]
    by_cases h : i < (lookupReg reg name).length
    · rw [dif_pos h, asyncStep_of_noregisters env name args _ reg (hreg _ args)]
      rw [List.drop_eq_getElem_cons h]
      have hget : (lookupReg reg name)[i] = (lookupReg reg name).get ⟨i, h⟩ := rfl
      rcases hev : asyncEvents env name args ((lookupReg reg name).get ⟨i, h⟩) with ⟨evs, err⟩
      rcases err with _ | m
      · dsimp only
        have hrec := ih (i + 1) reg (by omega)
        rw [hrec]
        simp only [dispatchPure, hget, hev]
      · dsimp only
        simp only [dispatchPure, hget, hev]
    · have hlen : (lookupReg reg name).length ≤ i := by omega
      rw [List.drop_eq_nil_of_le hlen, dif_neg h]
      rfl

/-- The `[NOTICE]` line one sync-raiser iteration emits for callback `c`,
if any: plain callbacks raising an `Exception`-level error yield one notice;
coroutine callbacks never do (their body does not run), nor do callbacks
returning normally or raising at `BaseException` level (uncaught). -/
def syncNoticeOf {Args : Type} (env : Env Args) (name : String) (args : Args)
    (c : Nat) : Option (String × String) :=
  if (env c).isCoroutine then none
  else
    match (env c).run args with
    | Outcome.excErr m => some (name, m)
    | _ => none

/-- The `[NOTICE]` line one async-raiser iteration emits for callback `c`,
if any. -/
def asyncNoticeOf {Args : Type} (env : Env Args) (name : String) (args : Args)
    (c : Nat) : Option (String × String) :=
  match (env c).run args with
  | Outcome.excErr m => some (name, m)
  | _ => none

theorem syncEvents_snd_eq_none {Args : Type} (env : Env Args) (name : String)
    (args : Args) (c : Nat)
    (h : ∀ m, (env c).run args ≠ Outcome.baseErr m) :
    (syncEvents env name args c).2 = none := by
  unfold syncEvents
  split
  · rfl
  · rcases hr : (env c).run args with _ | m | m
    · rfl
    · rfl
    · exact absurd hr (h m)

theorem asyncEvents_snd_eq_none {Args : Type} (env : Env Args) (name : String)
    (args : Args) (c : Nat)
    (h : ∀ m, (env c).run args ≠ Outcome.baseErr m) :
    (asyncEvents env name args c).2 = none := by
  unfold asyncEvents
  rcases hr : (env c).run args with _ | m | m
  · rfl
  · rfl
  · exact absurd hr (h m)

theorem invokesOf_append {Args : Type} (a b : List (Ev Args)) :
    invokesOf (a ++ b) = invokesOf a ++ invokesOf b := by
  unfold invokesOf
  exact List.filterMap_append a b _

theorem noticesOf_append {Args : Type} (a b : List (Ev Args)) :
    noticesOf (a ++ b) = noticesOf a ++ noticesOf b := by
  unfold noticesOf
  exact List.filterMap_append a b _

theorem invokesOf_syncEvents {Args : Type} (env : Env Args) (name : String)
    (args : Args) (c : Nat) :
    invokesOf (syncEvents env name args c).1 = [(c, args)] := by
  unfold syncEvents
  split
  · rfl
  · rcases (env c).run args <;> rfl

theorem invokesOf_asyncEvents {Args : Type} (env : Env Args) (name : String)
    (args : Args) (c : Nat) :
    invokesOf (asyncEvents env name args c).1 = [(c, args)] := by
  unfold asyncEvents
  rcases (env c).run args <;> rfl

theorem noticesOf_syncEvents {Args : Type} (env : Env Args) (name : String)
    (args : Args) (c : Nat) :
    noticesOf (syncEvents env name args c).1 =
      (syncNoticeOf env name args c).toList := by
  unfold syncEvents syncNoticeOf
  split
  · rfl
  · rcases (env c).run args <;> rfl

theorem noticesOf_asyncEvents {Args : Type} (env : Env Args) (name : String)
    (args : Args) (c : Nat) :
    noticesOf (asyncEvents env name args c).1 =
      (asyncNoticeOf env name args c).toList := by
  unfold asyncEvents asyncNoticeOf
  rcases (env c).run args <;> rfl

/-- With no uncaught errors among the listed callbacks, the reference
dispatch runs every callback, concatenates the per-callback observables in
list order, and finishes normally. -/
theorem dispatchPure_of_no_base {Args : Type}
    (step : Nat → List (Ev Args) × Option String) :
    ∀ cs : List Nat, (∀ c ∈ cs, (step c).2 = none) →
      dispatchPure step cs = ((cs.map (fun c => (step c).1)).flatten, none) := by
  intro cs
  induction cs with
  | nil => intro _; rfl
  | cons c cs ih =>
    intro h
    have hc : (step c).2 = none := h c (List.mem_cons_self c cs)
    rcases hs : step c with ⟨evs, err⟩
    have herr : err = none := by rw [hs] at hc; exact hc
    subst herr
    have hrest := ih (fun d hd => h d (List.mem_cons_of_mem c hd))
    simp only [dispatchPure, hs, hrest, List.map_cons, List.flatten_cons]

theorem invokesOf_join_syncEvents {Args : Type} (env : Env Args) (name : String)
    (args : Args) :
    ∀ cs : List Nat,
      invokesOf ((cs.map (fun c => (syncEvents env name args c).1)).flatten) =
        cs.map (fun c => (c, args)) := by
  intro cs
  induction cs with
  | nil => rfl
  | cons c cs ih =>
    simp only [List.map_cons, List.flatten, invokesOf_append, ih,
      invokesOf_syncEvents]
    rfl

theorem invokesOf_join_asyncEvents {Args : Type} (env : Env Args) (name : String)
    (args : Args) :
    ∀ cs : List Nat,
      invokesOf ((cs.map (fun c => (asyncEvents env name args c).1)).flatten) =
        cs.map (fun c => (c, args)) := by
  intro cs
  induction cs with
  | nil => rfl
  | cons c cs ih =>
    simp only [List.map_cons, List.flatten, invokesOf_append, ih,
      invokesOf_asyncEvents]
    rfl

theorem noticesOf_join_syncEvents {Args : Type} (env : Env Args) (name : String)
    (args : Args) :
    ∀ cs : List Nat,
      noticesOf ((cs.map (fun c => (syncEvents env name args c).1)).flatten) =
        cs.filterMap (syncNoticeOf env name args) := by
  intro cs
  induction cs with
  | nil => rfl
  | cons c cs ih =>
    simp only [List.map_cons, List.flatten, noticesOf_append, ih,
      noticesOf_syncEvents, List.filterMap_cons]
    rcases syncNoticeOf env name args c <;> rfl

theorem noticesOf_join_asyncEvents {Args : Type} (env : Env Args) (name : String)
    (args : Args) :
    ∀ cs : List Nat,
      noticesOf ((cs.map (fun c => (asyncEvents env name args c).1)).flatten) =
        cs.filterMap (asyncNoticeOf env name args) := by
  intro cs
  induction cs with
  | nil => rfl
  | cons c cs ih =>
    simp only [List.map_cons, List.flatten, noticesOf_append, ih,
      noticesOf_asyncEvents, List.filterMap_cons]
    rcases asyncNoticeOf env name args c <;> rfl

/-- Registering `cs` one after another through the generated decorator
appends exactly `cs`, in order, to the event's callback list. -/
theorem lookupReg_foldl_decorator (name : String) :
    ∀ (cs : List Nat) (reg : Registry),
      lookupReg (cs.foldl (fun r c => (decorator name r c).1) reg) name =
        lookupReg reg name ++ cs := by
  intro cs
  induction cs with
  | nil => intro reg; simp
  | cons c cs ih =>
    intro reg
    rw [List.foldl_cons, ih]
    simp only [decorator, lookupReg_registerCallback_self, List.append_assoc,
      List.singleton_append]

/-- The generator never touches the registry component of the state. -/
theorem generate_event_raisers_fst (events : EventDict) :
    ∀ st : Registry × Namespace, (generate_event_raisers events st).1 = st.1 := by
  induction events with
  | nil => intro st; rfl
  | cons e events ih =>
    intro st
    simp only [generate_event_raisers, List.foldl_cons] at *
    exact ih _

/-- With registration-free callbacks and enough fuel, one sync-raiser call
leaves the registry unchanged and produces the reference dispatch of the
callback list registered for the event. -/
theorem syncRaiser_eq_dispatchPure {Args : Type} (env : Env Args) (name : String)
    (args : Args) (reg : Registry) (fuel : Nat)
    (hreg : ∀ c a, (env c).registers a = [])
    (hfuel : (lookupReg reg name).length ≤ fuel) :
    syncRaiser env name args reg fuel =
      ⟨reg, (dispatchPure (syncEvents env name args) (lookupReg reg name)).1,
            (dispatchPure (syncEvents env name args) (lookupReg reg name)).2⟩ := by
  rw [syncRaiser, syncLoop_eq_dispatchPure env name args hreg fuel 0 reg (by omega)]
  rw [List.drop_zero]

/-- With registration-free callbacks and enough fuel, one async-raiser call
leaves the registry unchanged and produces the reference dispatch of the
callback list registered for the event. -/
theorem asyncRaiser_eq_dispatchPure {Args : Type} (env : Env Args) (name : String)
    (args : Args) (reg : Registry) (fuel : Nat)
    (hreg : ∀ c a, (env c).registers a = [])
    (hfuel : (lookupReg reg name).length ≤ fuel) :
    asyncRaiser env name args reg fuel =
      ⟨reg, (dispatchPure (asyncEvents env name args) (lookupReg reg name)).1,
            (dispatchPure (asyncEvents env name args) (lookupReg reg name)).2⟩ := by
  rw [asyncRaiser, asyncLoop_eq_dispatchPure env name args hreg fuel 0 reg (by omega)]
  rw [List.drop_zero]

/-- When additionally no callback raises an uncaught (`BaseException`-level)
error, the sync raiser returns normally and its trace is the in-order
concatenation of the per-callback observables. -/
theorem syncRaiser_trace_flatten {Args : Type} (env : Env Args) (name : String)
    (args : Args) (reg : Registry) (fuel : Nat)
    (hreg : ∀ c a, (env c).registers a = [])
    (hnb : ∀ c ∈ lookupReg reg name, ∀ m, (env c).run args ≠ Outcome.baseErr m)
    (hfuel : (lookupReg reg name).length ≤ fuel) :
    syncRaiser env name args reg fuel =
      ⟨reg,
       ((lookupReg reg name).map (fun c => (syncEvents env name args c).1)).flatten,
       none⟩ := by
  rw [syncRaiser_eq_dispatchPure env name args reg fuel hreg hfuel]
  rw [dispatchPure_of_no_base (syncEvents env name args) (lookupReg reg name)
    (fun c hc => syncEvents_snd_eq_none env name args c (hnb c hc))]

/-- When additionally no callback raises an uncaught (`BaseException`-level)
error, the async raiser returns normally and its trace is the in-order
concatenation of the per-callback observables. -/
theorem asyncRaiser_trace_flatten {Args : Type} (env : Env Args) (name : String)
    (args : Args) (reg : Registry) (fuel : Nat)
    (hreg : ∀ c a, (env c).registers a = [])
    (hnb : ∀ c ∈ lookupReg reg name, ∀ m, (env c).run args ≠ Outcome.baseErr m)
    (hfuel : (lookupReg reg name).length ≤ fuel) :
    asyncRaiser env name args reg fuel =
      ⟨reg,
       ((lookupReg reg name).map (fun c => (asyncEvents env name args c).1)).flatten,
       none⟩ := by
  rw [asyncRaiser_eq_dispatchPure env name args reg fuel hreg hfuel]
  rw [dispatchPure_of_no_base (asyncEvents env name args) (lookupReg reg name)
    (fun c hc => asyncEvents_snd_eq_none env name args c (hnb c hc))]

/-- Dispatch on the empty registry does nothing, for any fuel. -/
theorem syncRaiser_nil {Args : Type} (env : Env Args) (name : String)
    (args : Args) (fuel : Nat) :
    syncRaiser env name args [] fuel = ⟨[], [], none⟩ := by
  cases fuel with
  | zero => rfl
  | succ fuel => rfl

/-- Dispatch on the empty registry does nothing, for any fuel. -/
theorem asyncRaiser_nil {Args : Type} (env : Env Args) (name : String)
    (args : Args) (fuel : Nat) :
    asyncRaiser env name args [] fuel = ⟨[], [], none⟩ := by
  cases fuel with
  | zero => rfl
  | succ fuel => rfl

/-- C1: for every event name and every sequence of callbacks `c1, ..., cn`
registered in that order through the generated registration decorator, one
invocation of the generated sync raiser or of the generated async raiser
invokes exactly `c1, ..., cn`, each exactly once per registered occurrence,
in registration order, each with the argument value the raiser was called
with. (The callbacks are assumed not to re-register callbacks during the
dispatch, and not to raise uncaught `BaseException`-level errors; those two
situations are settled separately by C4 and C2.) -/
theorem C1_registration_order_preserved {Args : Type} (env : Env Args)
    (name : String) (args : Args) (reg0 : Registry) (cs : List Nat)
    (hreg : ∀ c a, (env c).registers a = [])
    (hnb : ∀ c ∈ cs, ∀ m, (env c).run args ≠ Outcome.baseErr m)
    (h0 : lookupReg reg0 name = []) :
    invokesOf (syncRaiser env name args
        (cs.foldl (fun r c => (decorator name r c).1) reg0) cs.length).trace =
      cs.map (fun c => (c, args)) ∧
    invokesOf (asyncRaiser env name args
        (cs.foldl (fun r c => (decorator name r c).1) reg0) cs.length).trace =
      cs.map (fun c => (c, args)) := by
  have hlook :
      lookupReg (cs.foldl (fun r c => (decorator name r c).1) reg0) name = cs := by
    rw [lookupReg_foldl_decorator, h0, List.nil_append]
  have hnb2 :
      ∀ c ∈ lookupReg (cs.foldl (fun r c => (decorator name r c).1) reg0) name,
        ∀ m, (env c).run args ≠ Outcome.baseErr m := by
    rw [hlook]; exact hnb
  have hfuel :
      (lookupReg (cs.foldl (fun r c => (decorator name r c).1) reg0) name).length ≤
        cs.length := by
    rw [hlook]
  constructor
  · rw [syncRaiser_trace_flatten env name args _ cs.length hreg hnb2 hfuel]
    rw [show (⟨_, ((lookupReg (cs.foldl (fun r c => (decorator name r c).1) reg0)
        name).map (fun c => (syncEvents env name args c).1)).flatten, none⟩ :
        DispatchResult Args).trace =
      ((lookupReg (cs.foldl (fun r c => (decorator name r c).1) reg0)
        name).map (fun c => (syncEvents env name args c).1)).flatten from rfl]
    rw [hlook, invokesOf_join_syncEvents]
  · rw [asyncRaiser_trace_flatten env name args _ cs.length hreg hnb2 hfuel]
    rw [show (⟨_, ((lookupReg (cs.foldl (fun r c => (decorator name r c).1) reg0)
        name).map (fun c => (asyncEvents env name args c).1)).flatten, none⟩ :
        DispatchResult Args).trace =
      ((lookupReg (cs.foldl (fun r c => (decorator name r c).1) reg0)
        name).map (fun c => (asyncEvents env name args c).1)).flatten from rfl]
    rw [hlook, invokesOf_join_asyncEvents]

/-- C1 witness: three ordinary callbacks registered in order 2, 0, 1 for one
event are each invoked once, in that order, with the raiser's argument. -/
theorem C1_registration_order_preserved_witness :
    invokesOf (syncRaiser
        (fun _ => ⟨false, fun _ => Outcome.ok, fun _ => []⟩ : Env Nat)
        "evt" 7
        ([2, 0, 1].foldl (fun r c => (decorator "evt" r c).1) []) 3).trace =
      [(2, 7), (0, 7), (1, 7)] ∧
    invokesOf (asyncRaiser
        (fun _ => ⟨false, fun _ => Outcome.ok, fun _ => []⟩ : Env Nat)
        "evt" 7
        ([2, 0, 1].foldl (fun r c => (decorator "evt" r c).1) []) 3).trace =
      [(2, 7), (0, 7), (1, 7)] :=
  C1_registration_order_preserved
    (fun _ => ⟨false, fun _ => Outcome.ok, fun _ => []⟩ : Env Nat)
    "evt" 7 [] [2, 0, 1]
    (fun _ _ => rfl) (by intro c _ m; exact fun h => Outcome.noConfusion h) rfl

/-- C2 counterexample: the claim says ANY error raised by a callback is
caught at the per-callback boundary, produces one notice, lets the remaining
callbacks run, and the raiser returns normally. The raisers' handler is
`except Exception`, which does not catch `BaseException`-level errors such as
`KeyboardInterrupt`: with callbacks 0 and 1 registered for event `evt` and
callback 0 raising `KeyboardInterrupt`, the sync dispatch propagates the
error to the caller, emits no notice, and never invokes callback 1. -/
theorem C2_counterexample :
    (syncRaiser
        (fun _ => ⟨false, fun _ => Outcome.baseErr "KeyboardInterrupt",
          fun _ => []⟩ : Env Nat)
        "evt" 0 [("evt", [0, 1])] 2).raised = some "KeyboardInterrupt" ∧
    noticesOf (syncRaiser
        (fun _ => ⟨false, fun _ => Outcome.baseErr "KeyboardInterrupt",
          fun _ => []⟩ : Env Nat)
        "evt" 0 [("evt", [0, 1])] 2).trace = [] ∧
    invokesOf (syncRaiser
        (fun _ => ⟨false, fun _ => Outcome.baseErr "KeyboardInterrupt",
          fun _ => []⟩ : Env Nat)
        "evt" 0 [("evt", [0, 1])] 2).trace = [(0, 0)] :=
  ⟨rfl, rfl, rfl⟩

/-- C2 (amended): for every dispatch (sync or async) and every registered
callback whose body raises an `Exception`-derived error when it runs, the
error is caught at the per-callback boundary and not propagated to the
raiser's caller, exactly one notice naming the event and the error is
emitted for that faulting run, and all remaining callbacks are still invoked
in the same dispatch; the raiser returns normally. This does NOT extend to
every error: a `BaseException`-level error (e.g. `KeyboardInterrupt`)
escapes `except Exception`, aborts the dispatch, and propagates to the
caller, as the counterexample shows; the claim therefore holds only for
`Exception`-derived errors, which is what the hypothesis `hnb` excludes.
The notice lists are exact: one `(event, message)` notice per faulting
callback run (under the sync raiser a coroutine callback's body never runs,
so it produces no notice), in dispatch order. -/
theorem C2_per_callback_error_isolation {Args : Type} (env : Env Args)
    (name : String) (args : Args) (reg : Registry)
    (hreg : ∀ c a, (env c).registers a = [])
    (hnb : ∀ c ∈ lookupReg reg name, ∀ m, (env c).run args ≠ Outcome.baseErr m) :
    (syncRaiser env name args reg (lookupReg reg name).length).raised = none ∧
    (asyncRaiser env name args reg (lookupReg reg name).length).raised = none ∧
    invokesOf (syncRaiser env name args reg (lookupReg reg name).length).trace =
      (lookupReg reg name).map (fun c => (c, args)) ∧
    invokesOf (asyncRaiser env name args reg (lookupReg reg name).length).trace =
      (lookupReg reg name).map (fun c => (c, args)) ∧
    noticesOf (syncRaiser env name args reg (lookupReg reg name).length).trace =
      (lookupReg reg name).filterMap (syncNoticeOf env name args) ∧
    noticesOf (asyncRaiser env name args reg (lookupReg reg name).length).trace =
      (lookupReg reg name).filterMap (asyncNoticeOf env name args) := by
  have hs := syncRaiser_trace_flatten env name args reg
    (lookupReg reg name).length hreg hnb (Nat.le_refl _)
  have ha := asyncRaiser_trace_flatten env name args reg
    (lookupReg reg name).length hreg hnb (Nat.le_refl _)
  rw [hs, ha]
  refine ⟨rfl, rfl, ?_, ?_, ?_, ?_⟩
  · exact invokesOf_join_syncEvents env name args (lookupReg reg name)
  · exact invokesOf_join_asyncEvents env name args (lookupReg reg name)
  · exact noticesOf_join_syncEvents env name args (lookupReg reg name)
  · exact noticesOf_join_asyncEvents env name args (lookupReg reg name)

/-- C2 witness: callbacks 0, 1, 2 registered for `evt`; callback 1 raises an
`Exception`-level error `boom`. Both raisers return normally, all three
callbacks are invoked, and exactly one notice `(evt, boom)` is emitted. -/
theorem C2_per_callback_error_isolation_witness :
    (syncRaiser
        (fun c => if c = 1 then ⟨false, fun _ => Outcome.excErr "boom", fun _ => []⟩
          else ⟨false, fun _ => Outcome.ok, fun _ => []⟩ : Env Nat)
        "evt" 9 [("evt", [0, 1, 2])] 3).raised = none ∧
    (asyncRaiser
        (fun c => if c = 1 then ⟨false, fun _ => Outcome.excErr "boom", fun _ => []⟩
          else ⟨false, fun _ => Outcome.ok, fun _ => []⟩ : Env Nat)
        "evt" 9 [("evt", [0, 1, 2])] 3).raised = none ∧
    invokesOf (syncRaiser
        (fun c => if c = 1 then ⟨false, fun _ => Outcome.excErr "boom", fun _ => []⟩
          else ⟨false, fun _ => Outcome.ok, fun _ => []⟩ : Env Nat)
        "evt" 9 [("evt", [0, 1, 2])] 3).trace = [(0, 9), (1, 9), (2, 9)] ∧
    invokesOf (asyncRaiser
        (fun c => if c = 1 then ⟨false, fun _ => Outcome.excErr "boom", fun _ => []⟩
          else ⟨false, fun _ => Outcome.ok, fun _ => []⟩ : Env Nat)
        "evt" 9 [("evt", [0, 1, 2])] 3).trace = [(0, 9), (1, 9), (2, 9)] ∧
    noticesOf (syncRaiser
        (fun c => if c = 1 then ⟨false, fun _ => Outcome.excErr "boom", fun _ => []⟩
          else ⟨false, fun _ => Outcome.ok, fun _ => []⟩ : Env Nat)
        "evt" 9 [("evt", [0, 1, 2])] 3).trace = [("evt", "boom")] ∧
    noticesOf (asyncRaiser
        (fun c => if c = 1 then ⟨false, fun _ => Outcome.excErr "boom", fun _ => []⟩
          else ⟨false, fun _ => Outcome.ok, fun _ => []⟩ : Env Nat)
        "evt" 9 [("evt", [0, 1, 2])] 3).trace = [("evt", "boom")] := by
  have h := C2_per_callback_error_isolation
    (fun c => if c = 1 then ⟨false, fun _ => Outcome.excErr "boom", fun _ => []⟩
      else ⟨false, fun _ => Outcome.ok, fun _ => []⟩ : Env Nat)
    "evt" 9 [("evt", [0, 1, 2])]
    (fun c _ => by by_cases hc : c = 1 <;> simp [hc])
    (by
      intro c _ m
      by_cases hc : c = 1 <;> simp [hc])
  simpa using h

/-- C3: one invocation of the generated async raiser runs the registered
callbacks strictly sequentially: its trace is exactly the concatenation, in
registration order, of per-callback segments, and each segment opens with
that callback's invocation and closes with its completion (for a normally
returning body, awaited to completion for coroutine callbacks and called
directly for plain callbacks, which the async step treats alike) or its
notice (for a caught faulting body) BEFORE the next callback's segment
begins. Hence every asynchronous callback is awaited to completion before
the next callback is invoked, there is no concurrent fan-out, and no two
callbacks of the same raise invocation overlap in the trace. -/
theorem C3_async_strict_sequential_await {Args : Type} (env : Env Args)
    (name : String) (args : Args) (reg : Registry)
    (hreg : ∀ c a, (env c).registers a = [])
    (hnb : ∀ c ∈ lookupReg reg name, ∀ m, (env c).run args ≠ Outcome.baseErr m) :
    (asyncRaiser env name args reg (lookupReg reg name).length).trace =
      ((lookupReg reg name).map (fun c => (asyncEvents env name args c).1)).flatten ∧
    (asyncRaiser env name args reg (lookupReg reg name).length).raised = none ∧
    (∀ c, (env c).run args = Outcome.ok →
      (asyncEvents env name args c).1 = [Ev.invoke c args, Ev.complete c]) ∧
    (∀ c m, (env c).run args = Outcome.excErr m →
      (asyncEvents env name args c).1 = [Ev.invoke c args, Ev.notice name m]) := by
  have ha := asyncRaiser_trace_flatten env name args reg
    (lookupReg reg name).length hreg hnb (Nat.le_refl _)
  rw [ha]
  refine ⟨rfl, rfl, ?_, ?_⟩
  · intro c h
    simp [asyncEvents, h]
  · intro c m h
    simp [asyncEvents, h]

/-- C3 witness: a coroutine callback 0 followed by a plain callback 1. The
async dispatch awaits callback 0 to completion, then invokes callback 1. -/
theorem C3_async_strict_sequential_await_witness :
    (asyncRaiser
        (fun c => if c = 0 then ⟨true, fun _ => Outcome.ok, fun _ => []⟩
          else ⟨false, fun _ => Outcome.ok, fun _ => []⟩ : Env Nat)
        "evt" 5 [("evt", [0, 1])] 2).trace =
      [Ev.invoke 0 5, Ev.complete 0, Ev.invoke 1 5, Ev.complete 1] ∧
    (asyncRaiser
        (fun c => if c = 0 then ⟨true, fun _ => Outcome.ok, fun _ => []⟩
          else ⟨false, fun _ => Outcome.ok, fun _ => []⟩ : Env Nat)
        "evt" 5 [("evt", [0, 1])] 2).raised = none := by
  have h := C3_async_strict_sequential_await
    (fun c => if c = 0 then ⟨true, fun _ => Outcome.ok, fun _ => []⟩
      else ⟨false, fun _ => Outcome.ok, fun _ => []⟩ : Env Nat)
    "evt" 5 [("evt", [0, 1])]
    (fun c _ => by by_cases hc : c = 0 <;> simp [hc])
    (by
      intro c _ m
      by_cases hc : c = 0 <;> simp [hc])
  exact ⟨by simpa using h.1, by simpa using h.2.1⟩

/-- C4 counterexample: the claim says a dispatch iterates a snapshot of the
callback list fixed at dispatch start, so a callback registered mid-dispatch
for the same event is never invoked in that dispatch. The raisers iterate
the live list: with only callback 0 registered for `evt`, where callback 0's
body registers callback 1 for `evt`, the sync dispatch reaches the appended
entry and invokes callback 1 in the SAME dispatch. -/
theorem C4_counterexample :
    (syncRaiser
        (fun c => if c = 0 then ⟨false, fun _ => Outcome.ok, fun _ => [("evt", 1)]⟩
          else ⟨false, fun _ => Outcome.ok, fun _ => []⟩ : Env Nat)
        "evt" 0 [("evt", [0])] 2).trace =
      [Ev.invoke 0 0, Ev.complete 0, Ev.invoke 1 0, Ev.complete 1] ∧
    Ev.invoke 1 0 ∈ (syncRaiser
        (fun c => if c = 0 then ⟨false, fun _ => Outcome.ok, fun _ => [("evt", 1)]⟩
          else ⟨false, fun _ => Outcome.ok, fun _ => []⟩ : Env Nat)
        "evt" 0 [("evt", [0])] 2).trace :=
  ⟨rfl, by decide⟩

/-- C4 (amended): both raisers iterate the LIVE callback list, not a
snapshot frozen at dispatch start. A callback that, while being invoked,
registers a new callback for the same event appends it to the very list
under iteration, and the newly registered callback IS invoked later in the
same ongoing dispatch: with only callback `a` registered, whose body
registers `b` (and `b` ordinary and non-registering), one dispatch invokes
`a` and then `b`. The fuel value 2 covers the two iterations the live list
makes the loop perform. -/
theorem C4_live_list_iteration {Args : Type} (env : Env Args) (name : String)
    (args : Args) (reg : Registry) (a b : Nat)
    (hlook : lookupReg reg name = [a])
    (ha1 : (env a).isCoroutine = false) (ha2 : (env a).run args = Outcome.ok)
    (ha3 : (env a).registers args = [(name, b)])
    (hb1 : (env b).isCoroutine = false) (hb2 : (env b).run args = Outcome.ok)
    (hb3 : (env b).registers args = []) :
    (syncRaiser env name args reg 2).trace =
      [Ev.invoke a args, Ev.complete a, Ev.invoke b args, Ev.complete b] ∧
    (asyncRaiser env name args reg 2).trace =
      [Ev.invoke a args, Ev.complete a, Ev.invoke b args, Ev.complete b] := by
  have h2 : lookupReg (registerCallback reg name b) name = [a, b] := by
    rw [lookupReg_registerCallback_self, hlook]
    rfl
  constructor
  · simp [syncRaiser, syncLoop, syncStep, applyRegisters, hlook, h2,
      ha1, ha2, ha3, hb1, hb2, hb3]
  · simp [asyncRaiser, asyncLoop, asyncStep, applyRegisters, hlook, h2,
      ha2, ha3, hb2, hb3]

/-- C4 witness: the amended statement at the counterexample's input. -/
theorem C4_live_list_iteration_witness :
    (syncRaiser
        (fun c => if c = 0 then ⟨false, fun _ => Outcome.ok, fun _ => [("evt", 1)]⟩
          else ⟨false, fun _ => Outcome.ok, fun _ => []⟩ : Env Nat)
        "evt" 4 [("evt", [0])] 2).trace =
      [Ev.invoke 0 4, Ev.complete 0, Ev.invoke 1 4, Ev.complete 1] ∧
    (asyncRaiser
        (fun c => if c = 0 then ⟨false, fun _ => Outcome.ok, fun _ => [("evt", 1)]⟩
          else ⟨false, fun _ => Outcome.ok, fun _ => []⟩ : Env Nat)
        "evt" 4 [("evt", [0])] 2).trace =
      [Ev.invoke 0 4, Ev.complete 0, Ev.invoke 1 4, Ev.complete 1] :=
  C4_live_list_iteration
    (fun c => if c = 0 then ⟨false, fun _ => Outcome.ok, fun _ => [("evt", 1)]⟩
      else ⟨false, fun _ => Outcome.ok, fun _ => []⟩ : Env Nat)
    "evt" 4 [("evt", [0])] 0 1 rfl rfl rfl rfl rfl rfl rfl

/-- C5: with exactly one asynchronous-capable (coroutine) callback registered
for the event, invoking the generated sync raiser still performs that
callback's synchronous entry-point call (the `invoke` event is present, with
the raiser's argument), does not await or track its asynchronous
continuation (no `complete` event occurs), emits exactly one not-awaited
warning carrying the event name, and returns normally with the registry
unchanged. -/
theorem C5_sync_raiser_async_callback_warning {Args : Type} (env : Env Args)
    (name : String) (args : Args) (reg : Registry) (c : Nat)
    (hlook : lookupReg reg name = [c])
    (hco : (env c).isCoroutine = true) :
    syncRaiser env name args reg 2 =
      ⟨reg, [Ev.warning name, Ev.invoke c args], none⟩ ∧
    warningsOf (syncRaiser env name args reg 2).trace = [name] ∧
    invokesOf (syncRaiser env name args reg 2).trace = [(c, args)] ∧
    Ev.complete c ∉ (syncRaiser env name args reg 2).trace := by
  have h : syncRaiser env name args reg 2 =
      ⟨reg, [Ev.warning name, Ev.invoke c args], none⟩ := by
    simp [syncRaiser, syncLoop, syncStep, hlook, hco]
  refine ⟨h, ?_, ?_, ?_⟩ <;> rw [h] <;> simp [warningsOf, invokesOf]

/-- C5 witness: one coroutine callback 0 registered for `evt`; the sync
raiser calls it, does not await it, warns once naming `evt`, and returns. -/
theorem C5_sync_raiser_async_callback_warning_witness :
    syncRaiser (fun _ => ⟨true, fun _ => Outcome.ok, fun _ => []⟩ : Env Nat)
        "evt" 6 [("evt", [0])] 2 =
      ⟨[("evt", [0])], [Ev.warning "evt", Ev.invoke 0 6], none⟩ ∧
    warningsOf (syncRaiser
        (fun _ => ⟨true, fun _ => Outcome.ok, fun _ => []⟩ : Env Nat)
        "evt" 6 [("evt", [0])] 2).trace = ["evt"] ∧
    invokesOf (syncRaiser
        (fun _ => ⟨true, fun _ => Outcome.ok, fun _ => []⟩ : Env Nat)
        "evt" 6 [("evt", [0])] 2).trace = [(0, 6)] ∧
    Ev.complete 0 ∉ (syncRaiser
        (fun _ => ⟨true, fun _ => Outcome.ok, fun _ => []⟩ : Env Nat)
        "evt" 6 [("evt", [0])] 2).trace :=
  C5_sync_raiser_async_callback_warning
    (fun _ => ⟨true, fun _ => Outcome.ok, fun _ => []⟩ : Env Nat)
    "evt" 6 [("evt", [0])] 0 rfl rfl

/-- C6 counterexample: the claim says a value obtained from the snapshot is
not retroactively altered by later clear/registration operations and that
mutating the returned value cannot change the registry. `get_event_registry`
returns the live registry object itself, so after a clear the held snapshot
reads back empty rather than the mapping at snapshot time, and writing
through the snapshot replaces the registry. -/
theorem C6_counterexample :
    readRef (clear_event_registry (get_event_registry [("evt", [0])]).1)
        (get_event_registry [("evt", [0])]).2 ≠ [("evt", [0])] ∧
    writeRef [("evt", [0])] (get_event_registry [("evt", [0])]).2 [] ≠
      [("evt", [0])] := by
  constructor <;> decide

/-- C6 (amended): `get_event_registry` is read-only introspection — calling
it does not modify the registry, and the value read through its result
equals the registry's current mapping — but the returned value is the LIVE
registry object, an alias: clear and registration operations performed after
the snapshot are visible through it (after a clear it reads back empty, after
a registration it reads back the updated mapping), and mutating the returned
value mutates the registry itself. -/
theorem C6_snapshot_is_live_alias (s v : Registry) (name : String) (c : Nat) :
    (get_event_registry s).1 = s ∧
    readRef s (get_event_registry s).2 = s ∧
    readRef (clear_event_registry (get_event_registry s).1)
      (get_event_registry s).2 = [] ∧
    readRef (registerCallback (get_event_registry s).1 name c)
      (get_event_registry s).2 = registerCallback s name c ∧
    writeRef s (get_event_registry s).2 v = v :=
  ⟨rfl, rfl, rfl, rfl, rfl⟩

/-- C7: the registry is mutated only by registration calls and the clear
operation: generating raisers for any event specification into any namespace
leaves the registry component of the state unchanged (so generating twice
for the same event name accumulates no registry state), and an invocation of
a generated sync or async raiser whose callbacks perform no registration
calls returns the registry exactly as it found it. -/
theorem C7_registry_untouched_by_generation_and_dispatch {Args : Type}
    (env : Env Args) (events : EventDict) (st : Registry × Namespace)
    (name : String) (args : Args) (reg : Registry) (fuel : Nat)
    (hreg : ∀ c a, (env c).registers a = [])
    (hfuel : (lookupReg reg name).length ≤ fuel) :
    (generate_event_raisers events st).1 = st.1 ∧
    (syncRaiser env name args reg fuel).reg = reg ∧
    (asyncRaiser env name args reg fuel).reg = reg := by
  refine ⟨generate_event_raisers_fst events st, ?_, ?_⟩
  · rw [syncRaiser_eq_dispatchPure env name args reg fuel hreg hfuel]
  · rw [asyncRaiser_eq_dispatchPure env name args reg fuel hreg hfuel]

/-- C7 witness: generation over a one-event specification and one dispatch
each way leave a one-entry registry exactly as it was. -/
theorem C7_registry_untouched_witness :
    (generate_event_raisers [("on_temp", [("temperature", "float")])]
        ([("evt", [0])], [])).1 = [("evt", [0])] ∧
    (syncRaiser (fun _ => ⟨false, fun _ => Outcome.ok, fun _ => []⟩ : Env Nat)
        "evt" 3 [("evt", [0])] 1).reg = [("evt", [0])] ∧
    (asyncRaiser (fun _ => ⟨false, fun _ => Outcome.ok, fun _ => []⟩ : Env Nat)
        "evt" 3 [("evt", [0])] 1).reg = [("evt", [0])] :=
  C7_registry_untouched_by_generation_and_dispatch
    (fun _ => ⟨false, fun _ => Outcome.ok, fun _ => []⟩ : Env Nat)
    [("on_temp", [("temperature", "float")])] ([("evt", [0])], [])
    "evt" 3 [("evt", [0])] 1 (fun _ _ => rfl) (by decide)

/-- C8: after `clear_event_registry`, the registry is back to its initial
empty state: the snapshot reads back an empty mapping, and a subsequent
dispatch (sync or async) on ANY event name — in particular any name that
previously had registered callbacks — finds an empty list, performs zero
callback invocations, emits nothing, and returns normally. This holds for
every registry state at the time of the clear call. -/
theorem C8_clear_resets_state {Args : Type} (env : Env Args) (s : Registry)
    (name : String) (args : Args) (fuel : Nat) :
    clear_event_registry s = [] ∧
    readRef (clear_event_registry s)
      (get_event_registry (clear_event_registry s)).2 = [] ∧
    syncRaiser env name args (clear_event_registry s) fuel = ⟨[], [], none⟩ ∧
    asyncRaiser env name args (clear_event_registry s) fuel = ⟨[], [], none⟩ :=
  ⟨rfl, rfl, syncRaiser_nil env name args fuel, asyncRaiser_nil env name args fuel⟩

/-- C9: dispatching an event name with zero registered callbacks (a name
never registered, never declared, or simply absent from the registry) is a
silent no-op for both raisers: zero invocations, zero notices, zero
warnings (the empty trace), no escaping error, and the registry unchanged. -/
theorem C9_unknown_event_silent_noop {Args : Type} (env : Env Args)
    (name : String) (args : Args) (reg : Registry) (fuel : Nat)
    (h : lookupReg reg name = []) :
    syncRaiser env name args reg fuel = ⟨reg, [], none⟩ ∧
    asyncRaiser env name args reg fuel = ⟨reg, [], none⟩ := by
  constructor
  · cases fuel with
    | zero => rfl
    | succ fuel => simp [syncRaiser, syncLoop, h]
  · cases fuel with
    | zero => rfl
    | succ fuel => simp [asyncRaiser, asyncLoop, h]

/-- C9 witness: dispatching `evt`, which has no entry in a registry holding
only `other`, does nothing in either raiser. -/
theorem C9_unknown_event_silent_noop_witness :
    syncRaiser (fun _ => ⟨false, fun _ => Outcome.ok, fun _ => []⟩ : Env Nat)
        "evt" 1 [("other", [5])] 3 = ⟨[("other", [5])], [], none⟩ ∧
    asyncRaiser (fun _ => ⟨false, fun _ => Outcome.ok, fun _ => []⟩ : Env Nat)
        "evt" 1 [("other", [5])] 3 = ⟨[("other", [5])], [], none⟩ :=
  C9_unknown_event_silent_noop
    (fun _ => ⟨false, fun _ => Outcome.ok, fun _ => []⟩ : Env Nat)
    "evt" 1 [("other", [5])] 3 (by decide)

/-- C10: the generated raise functions perform no arity or type checking of
their argument value: the dispatch semantics never inspects `args` against
the event's declared parameter list (the attached signature is
introspection-only metadata and does not occur in `syncStep`/`asyncStep` at
all), and for every argument value the raiser forwards it unchanged to every
registered callback — each recorded invocation carries exactly the raiser's
argument. An argument-binding mismatch inside a callback call is a
`TypeError`, an `Exception`-level fault (an `excErr` outcome, permitted by
the hypotheses), so it surfaces only as a caught per-callback notice while
the raiser itself returns normally. -/
theorem C10_arguments_forwarded_unchecked {Args : Type} (env : Env Args)
    (name : String) (args : Args) (reg : Registry)
    (hreg : ∀ c a, (env c).registers a = [])
    (hnb : ∀ c ∈ lookupReg reg name, ∀ m, (env c).run args ≠ Outcome.baseErr m) :
    (syncRaiser env name args reg (lookupReg reg name).length).raised = none ∧
    (asyncRaiser env name args reg (lookupReg reg name).length).raised = none ∧
    invokesOf (syncRaiser env name args reg (lookupReg reg name).length).trace =
      (lookupReg reg name).map (fun c => (c, args)) ∧
    invokesOf (asyncRaiser env name args reg (lookupReg reg name).length).trace =
      (lookupReg reg name).map (fun c => (c, args)) ∧
    (∀ p ∈ invokesOf
        (syncRaiser env name args reg (lookupReg reg name).length).trace,
      p.2 = args) ∧
    (∀ p ∈ invokesOf
        (asyncRaiser env name args reg (lookupReg reg name).length).trace,
      p.2 = args) := by
  have hs := syncRaiser_trace_flatten env name args reg
    (lookupReg reg name).length hreg hnb (Nat.le_refl _)
  have ha := asyncRaiser_trace_flatten env name args reg
    (lookupReg reg name).length hreg hnb (Nat.le_refl _)
  rw [hs, ha]
  refine ⟨rfl, rfl,
    invokesOf_join_syncEvents env name args (lookupReg reg name),
    invokesOf_join_asyncEvents env name args (lookupReg reg name), ?_, ?_⟩
  · intro p hp
    rw [invokesOf_join_syncEvents env name args (lookupReg reg name)] at hp
    rcases List.mem_map.mp hp with ⟨c, _, hc⟩
    rw [← hc]
  · intro p hp
    rw [invokesOf_join_asyncEvents env name args (lookupReg reg name)] at hp
    rcases List.mem_map.mp hp with ⟨c, _, hc⟩
    rw [← hc]

/-- C10 witness: a callback whose body raises a `TypeError` (as an argument
binding mismatch does) yields a caught notice, while the raiser forwards its
argument unchanged and returns normally. -/
theorem C10_arguments_forwarded_unchecked_witness :
    (syncRaiser (fun _ => ⟨false, fun _ => Outcome.excErr "TypeError",
        fun _ => []⟩ : Env Nat) "evt" 8 [("evt", [0])] 1).raised = none ∧
    (asyncRaiser (fun _ => ⟨false, fun _ => Outcome.excErr "TypeError",
        fun _ => []⟩ : Env Nat) "evt" 8 [("evt", [0])] 1).raised = none ∧
    invokesOf (syncRaiser (fun _ => ⟨false, fun _ => Outcome.excErr "TypeError",
        fun _ => []⟩ : Env Nat) "evt" 8 [("evt", [0])] 1).trace = [(0, 8)] ∧
    invokesOf (asyncRaiser (fun _ => ⟨false, fun _ => Outcome.excErr "TypeError",
        fun _ => []⟩ : Env Nat) "evt" 8 [("evt", [0])] 1).trace = [(0, 8)] ∧
    (∀ p ∈ invokesOf (syncRaiser
        (fun _ => ⟨false, fun _ => Outcome.excErr "TypeError",
          fun _ => []⟩ : Env Nat) "evt" 8 [("evt", [0])] 1).trace, p.2 = 8) ∧
    (∀ p ∈ invokesOf (asyncRaiser
        (fun _ => ⟨false, fun _ => Outcome.excErr "TypeError",
          fun _ => []⟩ : Env Nat) "evt" 8 [("evt", [0])] 1).trace, p.2 = 8) := by
  have h := C10_arguments_forwarded_unchecked
    (fun _ => ⟨false, fun _ => Outcome.excErr "TypeError", fun _ => []⟩ : Env Nat)
    "evt" 8 [("evt", [0])]
    (fun _ _ => rfl)
    (by
      intro c _ m
      simp)
  simpa using h

end EventRaiserGen
